import Mathlib

/-!
Verification development for the web-cloner repository.

The Python sources under `src/` are shallowly embedded below:
* `src/core/utils.py`      → `resolve_url`, `is_same_domain`, `get_file_extension`,
  `sanitize_filename`, `get_safe_filename` (together with a model of the parts of
  Python's `urllib.parse` that these functions call: `urlsplit`, `urlparse`,
  `urlunparse`, `urljoin`).
* `src/core/downloader.py` → `DState`, `download_file`, `download_resource`,
  `get_failed_urls`.  Network transport is abstracted as an oracle
  `net : String → FetchOutcome`; disk writes are recorded in `DState.files`.
* `src/core/parser.py`     → `extract_external_css`, `extract_images`,
  `extract_fonts_from_css` (with models of the regular expressions they use).
* `src/core/normalizer.py` → `process_external_css`, `process_images`,
  `process_fonts`, `rewrite_paths`.
* `src/server.py`          → `should_download`.

Strings are manipulated through their underlying character lists so that all
definitions evaluate by kernel reduction.
-/

namespace WebCloner

/-! ### Character and string helpers (models of Python `str` operations) -/

/-- A single quote character, written via its code point. -/
def quoteChar : Char := Char.ofNat 39

/-- Model of Python `str.split(sep)` (auxiliary, accumulator-based). -/
def splitCharAux (sep : Char) : List Char → List Char → List String
  | [], acc => [String.mk acc.reverse]
  | c :: cs, acc =>
    if c = sep then String.mk acc.reverse :: splitCharAux sep cs []
    else splitCharAux sep cs (c :: acc)

/-- Model of Python `str.split(sep)` for a one-character separator. -/
def pySplit (s : String) (sep : Char) : List String :=
  splitCharAux sep s.data []

/-- Whether a string contains the given character (Python `c in s`). -/
def containsChar (s : String) (c : Char) : Bool :=
  s.data.any (fun x => x = c)

/-- Boolean membership of a string in a list of strings (Python `x in l`). -/
def listContains : List String → String → Bool
  | [], _ => false
  | x :: t, a => x == a || listContains t a

/-- Model of Python `s.startswith(p)`. -/
def sStartsWith (p s : String) : Bool :=
  p.data.isPrefixOf s.data

/-- Split a character list at the first occurrence of `c`; the separator is
dropped (model of Python `s.split(c, 1)` when `c` occurs). -/
def breakOnChar (c : Char) : List Char → Option (List Char × List Char)
  | [] => none
  | x :: t =>
    if x = c then some ([], t)
    else
      match breakOnChar c t with
      | none => none
      | some (a, b) => some (x :: a, b)

/-- Split a character list at the last occurrence of `c` (used to model
Python `str.rfind`-based slicing). -/
def lastBreak (c : Char) (cs : List Char) : Option (List Char × List Char) :=
  match breakOnChar c cs.reverse with
  | none => none
  | some (postR, preR) => some (preR.reverse, postR.reverse)

/-- ASCII lower-casing of a string (model of Python `str.lower` on ASCII). -/
def lowerStr (s : String) : String :=
  String.mk (s.data.map Char.toLower)

/-- Join a list of strings with a separator (model of Python `sep.join`). -/
def sJoin (sep : String) : List String → String
  | [] => ""
  | [a] => a
  | a :: b :: t => a ++ sep ++ sJoin sep (b :: t)

/-- Model of Python `str.replace(tgt, rep)` (all non-overlapping occurrences,
left to right).  Fuel-driven; the fuel `s.length` suffices for the non-empty
targets this repository passes (absolute URLs). -/
def pyReplaceAux (tgt rep : List Char) : Nat → List Char → List Char
  | 0, cs => cs
  | _, [] => []
  | Nat.succ n, c :: t =>
    if tgt.isPrefixOf (c :: t) then rep ++ pyReplaceAux tgt rep n ((c :: t).drop tgt.length)
    else c :: pyReplaceAux tgt rep n t

/-- Model of Python `str.replace` on strings. -/
def pyReplace (s tgt rep : String) : String :=
  String.mk (pyReplaceAux tgt.data rep.data s.data.length s.data)

/-- Whitespace for Python `str.strip()` (the ASCII cases that can survive the
character substitutions performed before stripping in `sanitize_filename`). -/
def pyIsWs (c : Char) : Bool :=
  c = ' ' || c = '\t' || c = '\n' || c = '\r'

/-- Model of Python `str.strip()` on ASCII whitespace. -/
def pyStripWs (cs : List Char) : List Char :=
  ((cs.dropWhile pyIsWs).reverse.dropWhile pyIsWs).reverse

/-! ### Model of `urllib.parse` (the fragment used by `src/core/utils.py`)

`urlsplit`/`urlparse`/`urljoin`/`urlunparse` below follow CPython's
`urllib/parse.py`.  Control-character scrubbing and the IPv6/NFKC validation
errors are omitted: no input handled by the claims contains such characters. -/

/-- Result of `urllib.parse.urlsplit`. -/
structure SplitResult where
  scheme : String
  netloc : String
  path : String
  query : String
  fragment : String
deriving DecidableEq, Repr

/-- Result of `urllib.parse.urlparse`. -/
structure ParseResult where
  scheme : String
  netloc : String
  path : String
  params : String
  query : String
  fragment : String
deriving DecidableEq, Repr

/-- CPython `scheme_chars`. -/
def isSchemeChar (c : Char) : Bool :=
  c.isAlpha || c.isDigit || c = '+' || c = '-' || c = '.'

/-- CPython `uses_relative`. -/
def usesRelative : List String :=
  ["", "ftp", "http", "gopher", "nntp", "imap", "wais", "file", "https",
   "shttp", "mms", "prospero", "rtsp", "rtspu", "rtsps", "sftp", "svn",
   "svn+ssh", "ws", "wss"]

/-- CPython `uses_netloc`. -/
def usesNetloc : List String :=
  ["", "ftp", "http", "gopher", "nntp", "telnet", "imap", "wais", "file",
   "mms", "https", "shttp", "snews", "prospero", "rtsp", "rtspu", "rtsps",
   "rsync", "svn", "svn+ssh", "sftp", "nfs", "git", "git+ssh", "ws", "wss",
   "itms-services"]

/-- CPython `uses_params`. -/
def usesParams : List String :=
  ["", "ftp", "hdl", "prospero", "http", "imap", "https", "shttp", "rtsp",
   "rtsps", "rtspu", "sip", "sips", "mms", "sftp", "tel"]

/-- Model of `urllib.parse.urlsplit(url, scheme=dscheme)`. -/
def urlsplit (url : String) (dscheme : String) : SplitResult :=
  let cs := url.data
  let schemeRest : String × List Char :=
    match breakOnChar ':' cs with
    | none => (dscheme, cs)
    | some (pre, post) =>
      match pre with
      | [] => (dscheme, cs)
      | p :: _ =>
        if p.isAlpha && pre.all isSchemeChar then (lowerStr (String.mk pre), post)
        else (dscheme, cs)
  let scheme := schemeRest.1
  let rest := schemeRest.2
  let netlocRest : String × List Char :=
    match rest with
    | '/' :: '/' :: t =>
      let nl := t.takeWhile (fun c => c ≠ '/' && c ≠ '?' && c ≠ '#')
      (String.mk nl, t.dropWhile (fun c => c ≠ '/' && c ≠ '?' && c ≠ '#'))
    | _ => ("", rest)
  let netloc := netlocRest.1
  let rest2 := netlocRest.2
  let pathqFrag : List Char × String :=
    match breakOnChar '#' rest2 with
    | none => (rest2, "")
    | some (a, b) => (a, String.mk b)
  let fragment := pathqFrag.2
  let pathQuery : List Char × String :=
    match breakOnChar '?' pathqFrag.1 with
    | none => (pathqFrag.1, "")
    | some (a, b) => (a, String.mk b)
  ⟨scheme, netloc, String.mk pathQuery.1, pathQuery.2, fragment⟩

/-- Model of `urllib.parse._splitparams`. -/
def splitparams (path : String) : String × String :=
  let cs := path.data
  if containsChar path '/' then
    match lastBreak '/' cs with
    | none => (path, "")
    | some (pre, lastSeg) =>
      match breakOnChar ';' lastSeg with
      | none => (path, "")
      | some (b, a) => (String.mk pre ++ "/" ++ String.mk b, String.mk a)
  else
    match breakOnChar ';' cs with
    | none => (path, "")
    | some (b, a) => (String.mk b, String.mk a)

/-- Model of `urllib.parse.urlparse(url, scheme=dscheme)`. -/
def urlparse (url : String) (dscheme : String) : ParseResult :=
  let s := urlsplit url dscheme
  if listContains usesParams s.scheme && containsChar s.path ';' then
    let pp := splitparams s.path
    ⟨s.scheme, s.netloc, pp.1, pp.2, s.query, s.fragment⟩
  else
    ⟨s.scheme, s.netloc, s.path, "", s.query, s.fragment⟩

/-- Model of `urllib.parse.urlunsplit`. -/
def urlunsplit (scheme netloc path query fragment : String) : String :=
  let url :=
    if netloc ≠ "" || sStartsWith "//" path then
      let p := if path ≠ "" && ¬ sStartsWith "/" path then "/" ++ path else path
      "//" ++ netloc ++ p
    else path
  let url := if scheme ≠ "" then scheme ++ ":" ++ url else url
  let url := if query ≠ "" then url ++ "?" ++ query else url
  if fragment ≠ "" then url ++ "#" ++ fragment else url

/-- Model of `urllib.parse.urlunparse`. -/
def urlunparse (scheme netloc path params query fragment : String) : String :=
  let p := if params ≠ "" then path ++ ";" ++ params else path
  urlunsplit scheme netloc p query fragment

/-- Keep the first and last element, dropping empty strings in between
(CPython `segments[1:-1] = filter(None, segments[1:-1])`). -/
def filterMiddle : List String → List String
  | [] => []
  | [a] => [a]
  | a :: b :: t =>
    a :: (((b :: t).dropLast.filter (fun s => s ≠ "")) ++ [(b :: t).getLastD ""])

/-- Model of `urllib.parse.urljoin`. -/
def urljoin (base url : String) : String :=
  if base = "" then url
  else if url = "" then base
  else
    let b := urlparse base ""
    let u := urlparse url b.scheme
    if u.scheme ≠ b.scheme || ! listContains usesRelative u.scheme then url
    else
      let netlocStep : Option String :=
        if listContains usesNetloc u.scheme then
          if u.netloc ≠ "" then none else some b.netloc
        else some u.netloc
      match netlocStep with
      | none => urlunparse u.scheme u.netloc u.path u.params u.query u.fragment
      | some netloc =>
        if u.path = "" && u.params = "" then
          let query := if u.query = "" then b.query else u.query
          urlunparse u.scheme netloc b.path b.params query u.fragment
        else
          let baseParts0 := pySplit b.path '/'
          let baseParts :=
            if baseParts0.getLastD "" ≠ "" then baseParts0.dropLast else baseParts0
          let segments :=
            if sStartsWith "/" u.path then pySplit u.path '/'
            else filterMiddle (baseParts ++ pySplit u.path '/')
          let resolved := segments.foldl
            (fun acc seg =>
              if seg = ".." then acc.dropLast
              else if seg = "." then acc
              else acc ++ [seg]) []
          let resolved :=
            if segments.getLastD "" = "." || segments.getLastD "" = ".." then
              resolved ++ [""]
            else resolved
          let rp := sJoin "/" resolved
          let rp := if rp = "" then "/" else rp
          urlunparse u.scheme netloc rp u.params u.query u.fragment

/-! ### `src/core/utils.py` -/

/-- `utils.resolve_url(url, base_url)`. -/
def resolve_url (url base_url : String) : String :=
  if sStartsWith "http://" url || sStartsWith "https://" url then url
  else if sStartsWith "//" url then (urlparse base_url "").scheme ++ ":" ++ url
  else urljoin base_url url

/-- `utils.is_same_domain(url, domain)`: the parsed `netloc` equals `domain`
exactly, or is empty.  (`server.py`'s `_is_same_domain` is the identical code.) -/
def is_same_domain (url domain : String) : Bool :=
  let n := (urlparse url "").netloc
  n == domain || n == ""

/-- `utils.get_file_extension(url)`. -/
def get_file_extension (url : String) : String :=
  let path := (urlparse url "").path
  if containsChar path '.' then lowerStr ((pySplit path '.').getLastD "")
  else ""

/-- Model of `os.path.splitext` (POSIX). -/
def splitext (p : String) : String × String :=
  match lastBreak '.' p.data with
  | none => (p, "")
  | some (pre, post) =>
    if post.any (fun c => c = '/') then (p, "")
    else
      let basePre :=
        match lastBreak '/' pre with
        | none => pre
        | some (_, a) => a
      if basePre.any (fun c => c ≠ '.') then (String.mk pre, String.mk ('.' :: post))
      else (p, "")

/-- Characters replaced by `_` in `utils.sanitize_filename`
(regex class `[<>:"|?*\x00-\x1f]`). -/
def badFilenameChar (c : Char) : Bool :=
  c = '<' || c = '>' || c = ':' || c = '"' || c = '|' || c = '?' || c = '*' ||
  c.toNat ≤ 31

/-- `utils.sanitize_filename(filename)`. -/
def sanitize_filename (filename : String) : String :=
  let f1 := filename.data.map (fun c => if badFilenameChar c then '_' else c)
  let f2 := pyStripWs f1
  let f3 := if f2 = [] then "file".data else f2
  if f3.length > 255 then
    let ne := splitext (String.mk f3)
    String.mk (ne.1.data.take 250 ++ ne.2.data)
  else String.mk f3

/-- Characters replaced by `_` in `utils.get_safe_filename`
(regex class `[<>:"|?*]`). -/
def unsafePathChar (c : Char) : Bool :=
  c = '<' || c = '>' || c = ':' || c = '"' || c = '|' || c = '?' || c = '*'

/-- `utils.get_safe_filename(url_path, default_name)`. -/
def get_safe_filename (url_path default_name : String) : String :=
  if url_path = "" || url_path = "/" then default_name
  else
    let p1 := url_path.data.dropWhile (fun c => c = '/')
    let p2 := p1.takeWhile (fun c => c ≠ '?')
    let p3 := p2.takeWhile (fun c => c ≠ '#')
    let p4 := p3.map (fun c => if unsafePathChar c then '_' else c)
    let p5 := if p4.getLastD ' ' = '/' then p4 ++ "index.html".data else p4
    let basename := (splitCharAux '/' p5 []).getLastD ""
    let p6 := if containsChar basename '.' then p5 else p5 ++ ".html".data
    String.mk p6

/-! ### `src/core/downloader.py`

The HTTP transport is a pure oracle `net : String → FetchOutcome`; the
downloader's observable state (`downloaded_urls`, `failed_urls`, the set of
files written to disk) is threaded explicitly.  The third component of each
result counts the network fetches performed by the call. -/

/-- Outcome of one `session.get` call (success, or a raised
`RequestException`/`Exception` carrying its message). -/
inductive FetchOutcome where
  | success : FetchOutcome
  | failure : String → FetchOutcome
deriving DecidableEq, Repr

/-- Observable state of a `ResourceDownloader`. -/
structure DState where
  downloaded_urls : List String
  failed_urls : List (String × String)
  files : List String
deriving DecidableEq, Repr

/-- A freshly constructed `ResourceDownloader`. -/
def dInit : DState := ⟨[], [], []⟩

/-- `ResourceDownloader.download_file(url, file_path)`.
Returns (new state, returned bool, number of fetches performed). -/
def download_file (net : String → FetchOutcome) (st : DState)
    (url : String) (file_path : String) : DState × Bool × Nat :=
  if listContains st.downloaded_urls url then (st, true, 0)
  else
    match net url with
    | FetchOutcome.success =>
      (⟨url :: st.downloaded_urls, st.failed_urls, file_path :: st.files⟩, true, 1)
    | FetchOutcome.failure e =>
      (⟨st.downloaded_urls, st.failed_urls ++ [(url, e)], st.files⟩, false, 1)

/-- `ResourceDownloader.download_resource(url, output_dir, subfolder, filename)`.
Paths are expressed relative to `output_dir` (exactly the
`file_path.relative_to(self.output_dir)` value the normalizer writes back).
Returns (new state, file path, number of fetches performed). -/
def download_resource (net : String → FetchOutcome) (st : DState)
    (url : String) (subfolder : String) (filename : Option String) :
    DState × String × Nat :=
  let fname :=
    match filename with
    | some f =>
      if f = "" then sanitize_filename (get_safe_filename (urlparse url "").path "index.html")
      else f
    | none => sanitize_filename (get_safe_filename (urlparse url "").path "index.html")
  let file_path := if subfolder ≠ "" then subfolder ++ "/" ++ fname else fname
  let r := download_file net st url file_path
  (r.1, file_path, r.2.2)

/-- `ResourceDownloader.get_failed_urls()`. -/
def get_failed_urls (st : DState) : List (String × String) :=
  st.failed_urls

/-! ### Models of the regular expressions in `src/core/parser.py`

`parser.py` scans CSS text with `re` patterns.  Each is modelled as a
deterministic scanner on character lists; the backtracking of the optional
quote groups collapses to the deterministic procedures below because a
shortened `[^"\')]+` capture always leaves a non-stop character in a position
where the pattern demands a quote or a closing parenthesis. -/

/-- Literal prefix match, optionally ASCII case-insensitive (`re.IGNORECASE`).
Returns the remainder after the literal. -/
def litPrefix (ci : Bool) : List Char → List Char → Option (List Char)
  | [], rest => some rest
  | _ :: _, [] => none
  | p :: ps, c :: rest =>
    if (if ci then p.toLower = c.toLower else p = c) then litPrefix ci ps rest
    else none

/-- The two quote characters of the class `["\']`. -/
def isQuoteChar (c : Char) : Bool :=
  c = '"' || c = quoteChar

/-- The stop characters of the capture class `[^"\')]`. -/
def isUrlStop (c : Char) : Bool :=
  c = '"' || c = quoteChar || c = ')'

/-- Match `["\']?([^"\')]+)["\']?\)` at the head of the input (the tail of the
patterns `url\(...\)`); returns the capture and the rest after the match. -/
def matchUrlBody (r : List Char) : Option (List Char × List Char) :=
  let r1 := match r with
    | c :: t => if isQuoteChar c then t else r
    | [] => r
  let run := r1.takeWhile (fun c => ! isUrlStop c)
  let rest := r1.dropWhile (fun c => ! isUrlStop c)
  if run = [] then none
  else
    match rest with
    | ')' :: after => some (run, after)
    | c :: after =>
      if isQuoteChar c then
        match after with
        | ')' :: after2 => some (run, after2)
        | _ => none
      else none
    | [] => none

/-- Match `url\(["\']?([^"\')]+)["\']?\)` at the head of the input. -/
def matchUrlParen (ci : Bool) (cs : List Char) : Option (List Char × List Char) :=
  match litPrefix ci "url(".data cs with
  | none => none
  | some r => matchUrlBody r

/-- Model of `re.finditer`: scan left to right, at each position attempt the
matcher; on success emit the capture and resume after the match, otherwise
advance one character.  Fuel-driven (the input length is always enough fuel). -/
def scanCaptures (f : List Char → Option (List Char × List Char)) :
    Nat → List Char → List (List Char)
  | 0, _ => []
  | _, [] => []
  | Nat.succ n, c :: t =>
    match f (c :: t) with
    | some (cap, rest) => cap :: scanCaptures f n rest
    | none => scanCaptures f n t

/-- The alternation `(woff|woff2|ttf|otf|eot)` of the font-URL pattern. -/
def fontExts : List String := ["woff", "woff2", "ttf", "otf", "eot"]

/-- Whether a `url(...)` capture satisfies the `[^"\')]+\.(woff|woff2|ttf|otf|eot)`
shape: it ends in a dot followed by a font extension (case-insensitive) with a
non-empty stem.  Since the capture of the font pattern must run to the same
closing quote/parenthesis as the generic capture, a generic match satisfies
the font pattern exactly when this predicate holds. -/
def hasFontExt (cap : List Char) : Bool :=
  let low := cap.map Char.toLower
  fontExts.any (fun e =>
    let suf := '.' :: e.data
    suf.isSuffixOf low && suf.length < low.length)

/-- Captures of `url\(["\']?([^"\')]+\.(woff|woff2|ttf|otf|eot))["\']?\)` with
`re.IGNORECASE` (the second pattern of `extract_fonts_from_css`). -/
def fontUrlCaptures (css : String) : List (List Char) :=
  (scanCaptures (matchUrlParen true) css.data.length css.data).filter hasFontExt

/-- Python `\s` (ASCII cases). -/
def pyIsSpace (c : Char) : Bool :=
  c = ' ' || c = '\t' || c = '\n' || c = '\r' || c = Char.ofNat 11 || c = Char.ofNat 12

/-- Drop characters up to and including the next `\x7d` (the `[^}]*\x7d` tail
of the `@font-face` pattern); `none` when no closing brace exists. -/
def dropToBrace : List Char → Option (List Char)
  | [] => none
  | c :: t => if c = Char.ofNat 125 then some t else dropToBrace t

/-- Positions (as suffixes after `url(`, case-insensitive) at which the greedy
`[^}]*` prefix of the `@font-face` pattern can place the `url\(` literal: all
occurrences before the first closing brace, in textual order. -/
def urlCandidates : List Char → List (List Char)
  | [] => []
  | c :: t =>
    if c = Char.ofNat 125 then []
    else
      match litPrefix true "url(".data (c :: t) with
      | some r => r :: urlCandidates t
      | none => urlCandidates t

/-- Try the `url(` candidates of an `@font-face` block; the greedy `[^}]*`
prefix means the rightmost viable candidate wins, so the caller passes the
candidates in reverse textual order. -/
def tryFontFaceCands : List (List Char) → Option (List Char × List Char)
  | [] => none
  | r :: rest =>
    match matchUrlBody r with
    | some (cap, r2) =>
      match dropToBrace r2 with
      | some after => some (cap, after)
      | none => tryFontFaceCands rest
    | none => tryFontFaceCands rest

/-- Match `@font-face\s*\x7b[^}]*url\(["\']?([^"\')]+)["\']?\)[^}]*\x7d`
(with `re.IGNORECASE`) at the head of the input. -/
def matchFontFace (cs : List Char) : Option (List Char × List Char) :=
  match litPrefix true "@font-face".data cs with
  | none => none
  | some r1 =>
    match r1.dropWhile pyIsSpace with
    | c :: body =>
      if c = Char.ofNat 123 then tryFontFaceCands (urlCandidates body).reverse
      else none
    | [] => none

/-- Captures of the `@font-face` pattern (the first pattern of
`extract_fonts_from_css`). -/
def fontFaceCaptures (css : String) : List (List Char) :=
  scanCaptures matchFontFace css.data.length css.data

/-! ### `src/core/parser.py` -/

/-- One entry of `HTMLParser.extract_external_css()`: the resolved absolute
URL together with the link tag's raw `href`. -/
structure CssRef where
  url : String
  href : String
deriving DecidableEq, Repr

/-- `HTMLParser.extract_external_css()`, as a function of the document's
stylesheet-link `href` values in document order. -/
def extract_external_css (base_url domain : String) (hrefs : List String) :
    List CssRef :=
  (hrefs.map (fun h => CssRef.mk (resolve_url h base_url) h)).filter
    (fun r => is_same_domain r.url domain)

/-- An element carrying an inline `style` attribute (input to the second loop
of `extract_images`): its optional `src` attribute, whether its tag name is
`img`, and the style text. -/
structure StyledTag where
  src : Option String
  isImg : Bool
  style : String
deriving DecidableEq, Repr

/-- One entry of `HTMLParser.extract_images()`: resolved URL plus the owning
tag's attributes that `_process_images` later consults. -/
structure ImgRef where
  url : String
  src : Option String
  isImg : Bool
  style : Option String
deriving DecidableEq, Repr

/-- `re.findall(r'url\(["\']?([^"\')]+)["\']?\)', style)` (case-sensitive). -/
def findCssUrls (style : String) : List String :=
  (scanCaptures (matchUrlParen false) style.data.length style.data).map String.mk

/-- `HTMLParser.extract_images()`: the `<img src=...>` loop followed by the
loop over elements with a `style` attribute.  (For refs produced by the first
loop the `style` field is unused by `_process_images`, which takes its `img`
branch, so it is recorded as `none`.) -/
def extract_images (base_url domain : String) (imgSrcs : List String)
    (styled : List StyledTag) : List ImgRef :=
  let fromImgs :=
    (imgSrcs.map (fun s => ImgRef.mk (resolve_url s base_url) (some s) true none)).filter
      (fun r => is_same_domain r.url domain)
  let fromStyles := styled.foldr
    (fun t acc =>
      (((findCssUrls t.style).map (fun u => resolve_url u base_url)).filter
          (fun u => is_same_domain u domain)).map
        (fun u => ImgRef.mk u t.src t.isImg (some t.style)) ++ acc)
    []
  fromImgs ++ fromStyles

/-- `HTMLParser.extract_fonts_from_css(css_content)`: `@font-face` captures
(appended when same-domain), then generic font-extension `url()` captures
(appended when same-domain and not already collected). -/
def extract_fonts_from_css (base_url domain : String) (css : String) :
    List String :=
  let fonts1 := ((fontFaceCaptures css).map
      (fun cap => resolve_url (String.mk cap) base_url)).filter
    (fun u => is_same_domain u domain)
  (fontUrlCaptures css).foldl
    (fun acc cap =>
      let u := resolve_url (String.mk cap) base_url
      if is_same_domain u domain && ! listContains acc u then acc ++ [u] else acc)
    fonts1

/-! ### `src/core/normalizer.py` -/

/-- Result of a normalizer pass over externally referenced resources:
downloader state, the rewritten attribute values (in document order), and the
number of network fetches performed. -/
structure CssProcResult where
  st : DState
  hrefs : List String
  fetches : Nat
deriving DecidableEq, Repr

/-- The filename chosen by `_process_external_css` for the reference at
enumeration index `idx`: the default `main_{idx+1}.css`, overridden by the
sanitized last path segment of the tag's `href` when that segment contains a
dot. -/
def css_filename (idx : Nat) (href : String) : String :=
  let seg := (pySplit href '/').getLastD ""
  if containsChar seg '.' then sanitize_filename seg
  else "main_" ++ toString (idx + 1) ++ ".css"

/-- The loop body of `StructureNormalizer._process_external_css` (indexed by
`enumerate`): download each reference into `css/` and rewrite the tag's
`href` to the relative path. -/
def process_external_css_go (net : String → FetchOutcome) (st : DState)
    (idx : Nat) : List CssRef → CssProcResult
  | [] => ⟨st, [], 0⟩
  | r :: rs =>
    let d := download_resource net st r.url "css" (some (css_filename idx r.href))
    let rest := process_external_css_go net d.1 (idx + 1) rs
    ⟨rest.st, d.2.1 :: rest.hrefs, d.2.2 + rest.fetches⟩

/-- `StructureNormalizer._process_external_css()`. -/
def process_external_css (net : String → FetchOutcome) (st : DState)
    (refs : List CssRef) : CssProcResult :=
  process_external_css_go net st 0 refs

/-- The filename chosen by `_process_images` for the reference at index `idx`:
default `image_{idx+1}.{ext}` (with `jpg` when the URL has no extension),
overridden by the sanitized last segment of the tag's `src` attribute when
present and dotted. -/
def image_filename (idx : Nat) (url : String) (src : Option String) : String :=
  let ext0 := get_file_extension url
  let ext := if ext0 = "" then "jpg" else ext0
  let dflt := "image_" ++ toString (idx + 1) ++ "." ++ ext
  match src with
  | some s =>
    let seg := (pySplit s '/').getLastD ""
    if containsChar seg '.' then sanitize_filename seg else dflt
  | none => dflt

/-- Match `url\(["\']?URL["\']?\)` (the `re.sub` pattern of `_process_images`,
with `URL` escaped by `re.escape`); returns the rest after the match. -/
def matchUrlLit (u : List Char) (cs : List Char) : Option (List Char) :=
  match litPrefix false "url(".data cs with
  | none => none
  | some r =>
    let tailMatch : List Char → Option (List Char) := fun r2 =>
      match litPrefix false u r2 with
      | none => none
      | some r3 =>
        match r3 with
        | ')' :: after => some after
        | c :: after =>
          if isQuoteChar c then
            match after with
            | ')' :: after2 => some after2
            | _ => none
          else none
        | [] => none
    match r with
    | c :: t =>
      if isQuoteChar c then
        match tailMatch t with
        | some after => some after
        | none => tailMatch r
      else tailMatch r
    | [] => tailMatch r

/-- Fuel-driven scan for the `re.sub` of `_process_images`. -/
def cssUrlSubAux (u rep : List Char) : Nat → List Char → List Char
  | 0, cs => cs
  | _, [] => []
  | Nat.succ n, c :: t =>
    match matchUrlLit u (c :: t) with
    | some rest => ("url(".data ++ rep ++ [')']) ++ cssUrlSubAux u rep n rest
    | none => c :: cssUrlSubAux u rep n t

/-- `re.sub(rf'url\(["\']?{re.escape(url)}["\']?\)', f'url({local})', style)`. -/
def cssUrlSub (style url localPath : String) : String :=
  String.mk (cssUrlSubAux url.data localPath.data style.data.length style.data)

/-- Result of `_process_images`. -/
structure ImgProcResult where
  st : DState
  refs : List ImgRef
  fetches : Nat
deriving DecidableEq, Repr

/-- The loop body of `StructureNormalizer._process_images`: download each
reference into `images/`, then rewrite the `img` tag's `src`, or substitute
the URL occurrences inside the owning tag's `style` attribute. -/
def process_images_go (net : String → FetchOutcome) (st : DState)
    (idx : Nat) : List ImgRef → ImgProcResult
  | [] => ⟨st, [], 0⟩
  | r :: rs =>
    let d := download_resource net st r.url "images" (some (image_filename idx r.url r.src))
    let path := d.2.1
    let r2 :=
      if r.isImg then { r with src := some path }
      else
        match r.style with
        | some sty => { r with style := some (cssUrlSub sty r.url path) }
        | none => r
    let rest := process_images_go net d.1 (idx + 1) rs
    ⟨rest.st, r2 :: rest.refs, d.2.2 + rest.fetches⟩

/-- `StructureNormalizer._process_images()`. -/
def process_images (net : String → FetchOutcome) (st : DState)
    (refs : List ImgRef) : ImgProcResult :=
  process_images_go net st 0 refs

/-- The filename chosen by `_process_fonts` for the `n`-th newly found font
(`n = len(fonts_found)` after appending). -/
def font_filename (n : Nat) (ext : String) : String :=
  if ext ≠ "" then "font_" ++ toString n ++ "." ++ ext else "font.woff"

/-- State carried through `_process_fonts` for one CSS file. -/
structure FontStepResult where
  st : DState
  fontsFound : List String
  content : String
  fetches : Nat
deriving DecidableEq, Repr

/-- The inner loop of `StructureNormalizer._process_fonts`: for each extracted
font URL not yet in `fonts_found`, append it, download it into `fonts/`, and
replace every occurrence of the URL in the CSS text by `../fonts/<name>`. -/
def process_fonts_urls (net : String → FetchOutcome) (st : DState)
    (ff : List String) (content : String) : List String → FontStepResult
  | [] => ⟨st, ff, content, 0⟩
  | u :: us =>
    if listContains ff u then process_fonts_urls net st ff content us
    else
      let ff2 := ff ++ [u]
      let fname := font_filename ff2.length (get_file_extension u)
      let d := download_resource net st u "fonts" (some fname)
      let content2 := pyReplace content u ("../fonts/" ++ fname)
      let rest := process_fonts_urls net d.1 ff2 content2 us
      ⟨rest.st, rest.fontsFound, rest.content, d.2.2 + rest.fetches⟩

/-- Result of `_process_fonts` over all CSS files. -/
structure FontsResult where
  st : DState
  fontsFound : List String
  files : List (String × String)
  fetches : Nat
deriving DecidableEq, Repr

/-- The outer loop of `StructureNormalizer._process_fonts` over the CSS files
(name, content) found in `css/`, in processing order. -/
def process_fonts_go (net : String → FetchOutcome) (base_url domain : String)
    (st : DState) (ff : List String) : List (String × String) → FontsResult
  | [] => ⟨st, ff, [], 0⟩
  | (name, content) :: fs =>
    let furls := extract_fonts_from_css base_url domain content
    let r := process_fonts_urls net st ff content furls
    let rest := process_fonts_go net base_url domain r.st r.fontsFound fs
    ⟨rest.st, rest.fontsFound, (name, r.content) :: rest.files, r.fetches + rest.fetches⟩

/-- `StructureNormalizer._process_fonts()` (starting from an empty
`fonts_found` list). -/
def process_fonts (net : String → FetchOutcome) (base_url domain : String)
    (st : DState) (cssFiles : List (String × String)) : FontsResult :=
  process_fonts_go net base_url domain st [] cssFiles

/-- The document slices that `_rewrite_paths` touches: stylesheet-link
`href`s, script `src`s and image `src`s, in document order. -/
structure Document where
  links : List String
  scripts : List String
  imgs : List String
deriving DecidableEq, Repr

/-- The stylesheet loop of `_rewrite_paths`: a link whose `href` starts with
`http` and is not same-domain is removed (decomposed). -/
def rewrite_links (domain : String) : List String → List String
  | [] => []
  | h :: t =>
    if sStartsWith "http" h && ! is_same_domain h domain then rewrite_links domain t
    else h :: rewrite_links domain t

/-- The script loop of `_rewrite_paths`: same removal policy as links. -/
def rewrite_scripts (domain : String) : List String → List String
  | [] => []
  | s :: t =>
    if sStartsWith "http" s && ! is_same_domain s domain then rewrite_scripts domain t
    else s :: rewrite_scripts domain t

/-- The image loop of `_rewrite_paths`: a foreign `http` `src` is replaced by
`images/placeholder.png`. -/
def rewrite_imgs (domain : String) : List String → List String
  | [] => []
  | s :: t =>
    (if sStartsWith "http" s && ! is_same_domain s domain then "images/placeholder.png"
     else s) :: rewrite_imgs domain t

/-- `StructureNormalizer._rewrite_paths()`. -/
def rewrite_paths (domain : String) (doc : Document) : Document :=
  ⟨rewrite_links domain doc.links, rewrite_scripts domain doc.scripts,
   rewrite_imgs domain doc.imgs⟩

/-! ### `src/server.py` -/

/-- The scheme prefixes excluded by `WebsiteCloner._should_download`. -/
def nonFetchableSchemes : List String := ["data:", "javascript:", "mailto:", "tel:"]

/-- `WebsiteCloner._should_download(url)` (its `_is_same_domain` is the same
code as `utils.is_same_domain`). -/
def should_download (domain : String) (downloaded : List String)
    (url : String) : Bool :=
  if ! is_same_domain url domain then false
  else if listContains downloaded url then false
  else if nonFetchableSchemes.any (fun p => sStartsWith p url) then false
  else true

/-! ### Helper lemmas -/

/-- `os.path.splitext` either leaves the input whole or produces a non-empty
extension. -/
theorem splitext_fst_or_snd (p : String) :
    (splitext p).1 = p ∨ (splitext p).2 ≠ "" := by
  unfold splitext
  rcases h : lastBreak '.' p.data with _ | ⟨pre, post⟩
  · left
    rfl
  · dsimp only
    split
    · left
      rfl
    · split
      · refine Or.inr ?_
        intro hc
        exact absurd (congrArg String.data hc) (by simp)
      · left
        rfl

/-- The final branch of `sanitize_filename` never yields the empty string when
its input list is non-empty. -/
theorem sanitize_body_ne_empty (f3 : List Char) (hf3 : f3 ≠ []) :
    (if f3.length > 255 then
        String.mk ((splitext (String.mk f3)).1.data.take 250 ++
          (splitext (String.mk f3)).2.data)
      else String.mk f3) ≠ "" := by
  by_cases hlen : f3.length > 255
  · rw [if_pos hlen]
    intro hc
    have h2 : ((splitext (String.mk f3)).1.data.take 250 ++
        (splitext (String.mk f3)).2.data) = ([] : List Char) :=
      congrArg String.data hc
    rcases List.append_eq_nil.mp h2 with ⟨h3, h4⟩
    rcases splitext_fst_or_snd (String.mk f3) with hfst | hsnd
    · rw [hfst] at h3
      have h5 : f3.take 250 = [] := h3
      rcases List.take_eq_nil_iff.mp h5 with h6 | h6
      · exact absurd h6 (by decide)
      · exact hf3 h6
    · apply hsnd
      rcases hs2 : (splitext (String.mk f3)).2 with ⟨l⟩
      rw [hs2] at h4
      have h5 : l = [] := h4
      rw [h5]
  · rw [if_neg hlen]
    intro hc
    exact hf3 (congrArg String.data hc)

/-- `sanitize_filename` never returns the empty string. -/
theorem sanitize_filename_ne_empty (s : String) : sanitize_filename s ≠ "" := by
  have h := sanitize_body_ne_empty
    (if pyStripWs (s.data.map (fun c => if badFilenameChar c then '_' else c)) = []
     then "file".data
     else pyStripWs (s.data.map (fun c => if badFilenameChar c then '_' else c)))
    (by split
        · simp
        · assumption)
  exact h

/-- The filename `_process_external_css` chooses is never empty. -/
theorem css_filename_ne_empty (idx : Nat) (href : String) :
    css_filename idx href ≠ "" := by
  unfold css_filename
  dsimp only
  split
  · exact sanitize_filename_ne_empty _
  · intro hc
    have h2 : ("main_" ++ toString (idx + 1) ++ ".css").data = ("" : String).data :=
      congrArg String.data hc
    rw [String.data_append, String.data_append] at h2
    rcases List.append_eq_nil.mp h2 with ⟨h3, _⟩
    rcases List.append_eq_nil.mp h3 with ⟨h4, _⟩
    exact absurd h4 (by decide)

/-- The filename `_process_fonts` chooses is never empty. -/
theorem font_filename_ne_empty (n : Nat) (ext : String) :
    font_filename n ext ≠ "" := by
  unfold font_filename
  split
  · intro hc
    have h2 : ("font_" ++ toString n ++ "." ++ ext).data = ("" : String).data :=
      congrArg String.data hc
    rw [String.data_append, String.data_append, String.data_append] at h2
    rcases List.append_eq_nil.mp h2 with ⟨h3, _⟩
    rcases List.append_eq_nil.mp h3 with ⟨h4, _⟩
    rcases List.append_eq_nil.mp h4 with ⟨h5, _⟩
    exact absurd h5 (by decide)
  · intro hc
    exact absurd (congrArg String.data hc) (by decide)

/-- A foreign `http` href never survives the stylesheet loop of
`_rewrite_paths`. -/
theorem rewrite_links_drops (domain : String) (l : List String) (x : String)
    (hx : sStartsWith "http" x = true) (hf : is_same_domain x domain = false) :
    x ∉ rewrite_links domain l := by
  induction l with
  | nil => simp [rewrite_links]
  | cons a t ih =>
    by_cases hc : (sStartsWith "http" a && ! is_same_domain a domain) = true
    · simpa [rewrite_links, hc] using ih
    · have hne : x ≠ a := by
        intro e
        apply hc
        rw [← e, hx, hf]
        rfl
      simp only [rewrite_links, if_neg hc]
      intro hmem
      rcases List.mem_cons.mp hmem with e | m
      · exact hne e
      · exact ih m

/-- A foreign `http` src never survives the script loop of `_rewrite_paths`. -/
theorem rewrite_scripts_drops (domain : String) (l : List String) (x : String)
    (hx : sStartsWith "http" x = true) (hf : is_same_domain x domain = false) :
    x ∉ rewrite_scripts domain l := by
  induction l with
  | nil => simp [rewrite_scripts]
  | cons a t ih =>
    by_cases hc : (sStartsWith "http" a && ! is_same_domain a domain) = true
    · simpa [rewrite_scripts, hc] using ih
    · have hne : x ≠ a := by
        intro e
        apply hc
        rw [← e, hx, hf]
        rfl
      simp only [rewrite_scripts, if_neg hc]
      intro hmem
      rcases List.mem_cons.mp hmem with e | m
      · exact hne e
      · exact ih m

/-- A reference the removal condition does not select is kept by the
stylesheet loop of `_rewrite_paths`. -/
theorem rewrite_links_keeps (domain : String) (l : List String) (x : String)
    (hmem : x ∈ l)
    (hc : (sStartsWith "http" x && ! is_same_domain x domain) = false) :
    x ∈ rewrite_links domain l := by
  induction l with
  | nil => cases hmem
  | cons a t ih =>
    rcases List.mem_cons.mp hmem with e | m
    · subst e
      simp only [rewrite_links]
      rw [if_neg (by rw [hc]; exact Bool.false_ne_true)]
      exact List.mem_cons_self _ _
    · by_cases hca : (sStartsWith "http" a && ! is_same_domain a domain) = true
      · simpa [rewrite_links, hca] using ih m
      · simp only [rewrite_links, if_neg hca]
        exact List.mem_cons_of_mem _ (ih m)

/-- The image loop of `_rewrite_paths` is pointwise substitution. -/
theorem rewrite_imgs_eq_map (domain : String) (l : List String) :
    rewrite_imgs domain l
      = l.map (fun s =>
          if (sStartsWith "http" s && ! is_same_domain s domain) = true
          then "images/placeholder.png" else s) := by
  induction l with
  | nil => rfl
  | cons a t ih => simp [rewrite_imgs, ih]

/-! ### Claim theorems -/

/-- C1: a URL already recorded in `downloaded_urls` makes any later
`download_file` call return `True` with no fetch and no state change; hence a
document whose two stylesheet links resolve to the identical absolute URL
(fetched successfully) causes exactly one network fetch. -/
theorem c1_dedup_single_fetch (net : String → FetchOutcome) (st : DState)
    (url fp u h : String)
    (hmem : listContains st.downloaded_urls url = true)
    (hnet : net u = FetchOutcome.success) :
    download_file net st url fp = (st, true, 0) ∧
    (process_external_css net dInit [CssRef.mk u h, CssRef.mk u h]).fetches = 1 := by
  constructor
  · simp [download_file, hmem]
  · simp [process_external_css, process_external_css_go, download_resource,
      download_file, dInit, listContains, hnet]

/-- Witness for C1 at concrete inputs. -/
theorem c1_dedup_single_fetch_witness :
    download_file (fun _ => FetchOutcome.success) (DState.mk ["u1"] [] ["f1"])
        "u1" "css/a.css" = (DState.mk ["u1"] [] ["f1"], true, 0) ∧
    (process_external_css (fun _ => FetchOutcome.success) dInit
        [CssRef.mk "https://e.com/s.css" "/s.css",
         CssRef.mk "https://e.com/s.css" "/s.css"]).fetches = 1 :=
  c1_dedup_single_fetch (fun _ => FetchOutcome.success) (DState.mk ["u1"] [] ["f1"])
    "u1" "css/a.css" "https://e.com/s.css" "/s.css" (by decide) rfl

/-- C10: when a fetch fails, the URL is appended to `failed_urls` with its
reason and not added to `downloaded_urls`, `download_file` returns `False`,
and a later `download_file` call for the same URL performs a fresh fetch. -/
theorem c10_failed_fetch_refetched (net : String → FetchOutcome) (st : DState)
    (u fp r : String)
    (hmem : listContains st.downloaded_urls u = false)
    (hnet : net u = FetchOutcome.failure r) :
    download_file net st u fp
        = (DState.mk st.downloaded_urls (st.failed_urls ++ [(u, r)]) st.files,
           false, 1) ∧
    listContains (download_file net st u fp).1.downloaded_urls u = false ∧
    (u, r) ∈ (download_file net st u fp).1.failed_urls ∧
    (download_file net (download_file net st u fp).1 u fp).2.2 = 1 := by
  refine ⟨?_, ?_, ?_, ?_⟩ <;> simp [download_file, hmem, hnet]

/-- Witness for C10 at concrete inputs. -/
theorem c10_failed_fetch_refetched_witness :
    download_file (fun _ => FetchOutcome.failure "boom") dInit
        "https://e.com/a.css" "css/a.css"
        = (DState.mk dInit.downloaded_urls
            (dInit.failed_urls ++ [("https://e.com/a.css", "boom")]) dInit.files,
           false, 1) ∧
    listContains (download_file (fun _ => FetchOutcome.failure "boom") dInit
        "https://e.com/a.css" "css/a.css").1.downloaded_urls "https://e.com/a.css"
      = false ∧
    ("https://e.com/a.css", "boom")
        ∈ (download_file (fun _ => FetchOutcome.failure "boom") dInit
            "https://e.com/a.css" "css/a.css").1.failed_urls ∧
    (download_file (fun _ => FetchOutcome.failure "boom")
        (download_file (fun _ => FetchOutcome.failure "boom") dInit
          "https://e.com/a.css" "css/a.css").1
        "https://e.com/a.css" "css/a.css").2.2 = 1 :=
  c10_failed_fetch_refetched (fun _ => FetchOutcome.failure "boom") dInit
    "https://e.com/a.css" "css/a.css" "boom" (by decide) rfl

/-- C4: `download_resource` returns a local path that does not depend on the
transport outcome or downloader state, and `_process_external_css` rewrites
the reference to that path even when the fetch fails, in which case no file is
written. -/
theorem c4_path_independent_of_outcome (net net2 : String → FetchOutcome)
    (st st2 : DState) (u sub : String) (fn : Option String)
    (h r : String) (hnet : net u = FetchOutcome.failure r) :
    (download_resource net st u sub fn).2.1
        = (download_resource net2 st2 u sub fn).2.1 ∧
    (process_external_css net dInit [CssRef.mk u h]).hrefs
        = ["css/" ++ css_filename 0 h] ∧
    (process_external_css net dInit [CssRef.mk u h]).st.files = [] := by
  refine ⟨rfl, ?_, ?_⟩
  · simp [process_external_css, process_external_css_go, download_resource,
      css_filename_ne_empty]
  · simp [process_external_css, process_external_css_go, download_resource,
      download_file, dInit, listContains, hnet]

/-- Witness for C4 at concrete inputs. -/
theorem c4_path_independent_of_outcome_witness :
    (download_resource (fun _ => FetchOutcome.failure "err") dInit
        "https://e.com/s.css" "css" (some "s.css")).2.1
      = (download_resource (fun _ => FetchOutcome.success)
          (DState.mk ["x"] [] []) "https://e.com/s.css" "css" (some "s.css")).2.1 ∧
    (process_external_css (fun _ => FetchOutcome.failure "err") dInit
        [CssRef.mk "https://e.com/s.css" "/s.css"]).hrefs
      = ["css/" ++ css_filename 0 "/s.css"] ∧
    (process_external_css (fun _ => FetchOutcome.failure "err") dInit
        [CssRef.mk "https://e.com/s.css" "/s.css"]).st.files = [] :=
  c4_path_independent_of_outcome (fun _ => FetchOutcome.failure "err")
    (fun _ => FetchOutcome.success) dInit (DState.mk ["x"] [] [])
    "https://e.com/s.css" "css" (some "s.css") "/s.css" "err" rfl

/-- C6: `is_same_domain url domain` is true exactly when the parsed `netloc`
of `url` equals `domain` as a literal string or is empty; in particular a
foreign host is rejected, a host-less relative URL is accepted, and a
subdomain of `domain` is not treated as same-origin. -/
theorem c6_is_same_domain_exact_netloc :
    (∀ url domain : String,
        is_same_domain url domain = true ↔
          ((urlparse url "").netloc = domain ∨ (urlparse url "").netloc = "")) ∧
    is_same_domain "https://other.com/x.png" "example.com" = false ∧
    is_same_domain "/x.png" "example.com" = true ∧
    is_same_domain "https://cdn.example.com/x.png" "example.com" = false := by
  refine ⟨fun url domain => ?_, by decide, by decide, by decide⟩
  simp [is_same_domain, Bool.or_eq_true, beq_iff_eq]

/-- C5: a transport failure on the second of three stylesheet references does
not abort the pass: all three tags are rewritten to their local paths, the
failed pair is recorded, `get_failed_urls` returns exactly that pair, and all
three fetches were attempted. -/
theorem c5_failure_isolated (net : String → FetchOutcome)
    (u1 u2 u3 h1 h2 h3 r : String)
    (h12 : u1 ≠ u2) (h13 : u1 ≠ u3)
    (hn1 : net u1 = FetchOutcome.success)
    (hn2 : net u2 = FetchOutcome.failure r)
    (hn3 : net u3 = FetchOutcome.success) :
    (process_external_css net dInit
        [CssRef.mk u1 h1, CssRef.mk u2 h2, CssRef.mk u3 h3]).hrefs
      = ["css/" ++ css_filename 0 h1, "css/" ++ css_filename 1 h2,
         "css/" ++ css_filename 2 h3] ∧
    get_failed_urls (process_external_css net dInit
        [CssRef.mk u1 h1, CssRef.mk u2 h2, CssRef.mk u3 h3]).st = [(u2, r)] ∧
    (process_external_css net dInit
        [CssRef.mk u1 h1, CssRef.mk u2 h2, CssRef.mk u3 h3]).fetches = 3 := by
  have e12 : (u1 == u2) = false := beq_eq_false_iff_ne.mpr h12
  have e13 : (u1 == u3) = false := beq_eq_false_iff_ne.mpr h13
  refine ⟨?_, ?_, ?_⟩ <;>
    simp [process_external_css, process_external_css_go, download_resource,
      download_file, get_failed_urls, dInit, listContains, hn1, hn2, hn3,
      e12, e13, css_filename_ne_empty]

/-- Witness for C5 at concrete inputs. -/
theorem c5_failure_isolated_witness :
    (process_external_css
        (fun x => if x = "https://e.com/2.css" then FetchOutcome.failure "timeout"
                  else FetchOutcome.success) dInit
        [CssRef.mk "https://e.com/1.css" "/1.css",
         CssRef.mk "https://e.com/2.css" "/2.css",
         CssRef.mk "https://e.com/3.css" "/3.css"]).hrefs
      = ["css/" ++ css_filename 0 "/1.css", "css/" ++ css_filename 1 "/2.css",
         "css/" ++ css_filename 2 "/3.css"] ∧
    get_failed_urls (process_external_css
        (fun x => if x = "https://e.com/2.css" then FetchOutcome.failure "timeout"
                  else FetchOutcome.success) dInit
        [CssRef.mk "https://e.com/1.css" "/1.css",
         CssRef.mk "https://e.com/2.css" "/2.css",
         CssRef.mk "https://e.com/3.css" "/3.css"]).st
      = [("https://e.com/2.css", "timeout")] ∧
    (process_external_css
        (fun x => if x = "https://e.com/2.css" then FetchOutcome.failure "timeout"
                  else FetchOutcome.success) dInit
        [CssRef.mk "https://e.com/1.css" "/1.css",
         CssRef.mk "https://e.com/2.css" "/2.css",
         CssRef.mk "https://e.com/3.css" "/3.css"]).fetches = 3 :=
  c5_failure_isolated
    (fun x => if x = "https://e.com/2.css" then FetchOutcome.failure "timeout"
              else FetchOutcome.success)
    "https://e.com/1.css" "https://e.com/2.css" "https://e.com/3.css"
    "/1.css" "/2.css" "/3.css" "timeout"
    (by decide) (by decide) (by decide) (by decide) (by decide)

/-- C2 (counterexample): two stylesheet links with the identical href
`https://ex.com/styles/` resolve to the identical absolute URL, yet the first
occurrence is rewritten to `css/main_1.css` and the second to
`css/main_2.css` — registering the same absolute URL twice does not always
yield the same local path — and only the first path's file is ever written. -/
theorem c2_counterexample :
    extract_external_css "https://ex.com" "ex.com"
        ["https://ex.com/styles/", "https://ex.com/styles/"]
      = [CssRef.mk "https://ex.com/styles/" "https://ex.com/styles/",
         CssRef.mk "https://ex.com/styles/" "https://ex.com/styles/"] ∧
    (process_external_css (fun _ => FetchOutcome.success) dInit
        [CssRef.mk "https://ex.com/styles/" "https://ex.com/styles/",
         CssRef.mk "https://ex.com/styles/" "https://ex.com/styles/"]).hrefs
      = ["css/main_1.css", "css/main_2.css"] ∧
    ("css/main_1.css" : String) ≠ "css/main_2.css" ∧
    (process_external_css (fun _ => FetchOutcome.success) dInit
        [CssRef.mk "https://ex.com/styles/" "https://ex.com/styles/",
         CssRef.mk "https://ex.com/styles/" "https://ex.com/styles/"]).st.files
      = ["css/main_1.css"] := by
  refine ⟨rfl, rfl, by decide, rfl⟩

/-- C2 (amended): the assigned local path is a function of the sanitized last
path segment of the reference's href whenever that segment contains a dot —
so two registrations through such hrefs agree on the path at any discovery
indices, independent of downloader state and transport — while an href whose
last segment has no dot falls back to the index-dependent default
`main_{idx+1}.css`. -/
theorem c2_amended_path_from_dotted_href (net net2 : String → FetchOutcome)
    (st st2 : DState) (u u2 : String) (idx idx2 : Nat) (h1 h2 : String)
    (hd1 : containsChar ((pySplit h1 '/').getLastD "") '.' = true)
    (hd2 : containsChar ((pySplit h2 '/').getLastD "") '.' = true)
    (hs : sanitize_filename ((pySplit h1 '/').getLastD "")
        = sanitize_filename ((pySplit h2 '/').getLastD "")) :
    (download_resource net st u "css" (some (css_filename idx h1))).2.1
      = (download_resource net2 st2 u2 "css" (some (css_filename idx2 h2))).2.1 := by
  have e1 : css_filename idx h1 = sanitize_filename ((pySplit h1 '/').getLastD "") := by
    unfold css_filename
    dsimp only
    rw [if_pos hd1]
  have e2 : css_filename idx2 h2 = sanitize_filename ((pySplit h2 '/').getLastD "") := by
    unfold css_filename
    dsimp only
    rw [if_pos hd2]
  have hs2 := hs
  simp only [List.getLastD_eq_getLast?] at hs2
  simp [download_resource, e1, e2, hs2, sanitize_filename_ne_empty]

/-- Witness for the amended C2 at concrete inputs. -/
theorem c2_amended_path_from_dotted_href_witness :
    (download_resource (fun _ => FetchOutcome.success) dInit
        "https://ex.com/a/style.css" "css" (some (css_filename 0 "/a/style.css"))).2.1
      = (download_resource (fun _ => FetchOutcome.failure "err")
          (DState.mk ["z"] [] []) "https://ex.com/a/style.css" "css"
          (some (css_filename 7 "style.css"))).2.1 :=
  c2_amended_path_from_dotted_href (fun _ => FetchOutcome.success)
    (fun _ => FetchOutcome.failure "err") dInit (DState.mk ["z"] [] [])
    "https://ex.com/a/style.css" "https://ex.com/a/style.css" 0 7
    "/a/style.css" "style.css" (by decide) (by decide) (by decide)

/-- C3 (counterexample): the two distinct absolute URLs
`https://ex.com/a/style.css` and `https://ex.com/b/style.css` sanitize to the
same filename `style.css`; no numeric suffix is applied — both references are
rewritten to the single path `css/style.css` and both fetches write to that
one file. -/
theorem c3_counterexample :
    extract_external_css "https://ex.com" "ex.com" ["/a/style.css", "/b/style.css"]
      = [CssRef.mk "https://ex.com/a/style.css" "/a/style.css",
         CssRef.mk "https://ex.com/b/style.css" "/b/style.css"] ∧
    ("https://ex.com/a/style.css" : String) ≠ "https://ex.com/b/style.css" ∧
    (process_external_css (fun _ => FetchOutcome.success) dInit
        [CssRef.mk "https://ex.com/a/style.css" "/a/style.css",
         CssRef.mk "https://ex.com/b/style.css" "/b/style.css"]).hrefs
      = ["css/style.css", "css/style.css"] ∧
    (process_external_css (fun _ => FetchOutcome.success) dInit
        [CssRef.mk "https://ex.com/a/style.css" "/a/style.css",
         CssRef.mk "https://ex.com/b/style.css" "/b/style.css"]).fetches = 2 ∧
    (process_external_css (fun _ => FetchOutcome.success) dInit
        [CssRef.mk "https://ex.com/a/style.css" "/a/style.css",
         CssRef.mk "https://ex.com/b/style.css" "/b/style.css"]).st.files
      = ["css/style.css", "css/style.css"] := by
  refine ⟨rfl, by decide, rfl, rfl, rfl⟩

/-- C3 (amended): two distinct absolute URLs whose hrefs carry equal sanitized
dotted last segments are both assigned the one shared local path (no suffix
strategy exists), and both occurrences are rewritten to that same path. -/
theorem c3_amended_shared_path_on_collision (net : String → FetchOutcome)
    (st : DState) (u1 u2 h1 h2 : String)
    (hd1 : containsChar ((pySplit h1 '/').getLastD "") '.' = true)
    (hd2 : containsChar ((pySplit h2 '/').getLastD "") '.' = true)
    (hs : sanitize_filename ((pySplit h1 '/').getLastD "")
        = sanitize_filename ((pySplit h2 '/').getLastD "")) :
    (process_external_css net st [CssRef.mk u1 h1, CssRef.mk u2 h2]).hrefs
      = ["css/" ++ sanitize_filename ((pySplit h1 '/').getLastD ""),
         "css/" ++ sanitize_filename ((pySplit h1 '/').getLastD "")] := by
  have e1 : css_filename 0 h1 = sanitize_filename ((pySplit h1 '/').getLastD "") := by
    unfold css_filename
    dsimp only
    rw [if_pos hd1]
  have e2 : css_filename 1 h2 = sanitize_filename ((pySplit h2 '/').getLastD "") := by
    unfold css_filename
    dsimp only
    rw [if_pos hd2]
  have hs2 := hs
  simp only [List.getLastD_eq_getLast?] at hs2
  simp [process_external_css, process_external_css_go, download_resource,
    e1, e2, hs2, sanitize_filename_ne_empty]

/-- Witness for the amended C3 at concrete inputs. -/
theorem c3_amended_shared_path_on_collision_witness :
    (process_external_css (fun _ => FetchOutcome.success) dInit
        [CssRef.mk "https://ex.com/a/style.css" "/a/style.css",
         CssRef.mk "https://ex.com/b/style.css" "/b/style.css"]).hrefs
      = ["css/" ++ sanitize_filename ((pySplit "/a/style.css" '/').getLastD ""),
         "css/" ++ sanitize_filename ((pySplit "/a/style.css" '/').getLastD "")] :=
  c3_amended_shared_path_on_collision (fun _ => FetchOutcome.success) dInit
    "https://ex.com/a/style.css" "https://ex.com/b/style.css"
    "/a/style.css" "/b/style.css" (by decide) (by decide) (by decide)

/-- C7 (counterexample): two stylesheets both reference the same same-origin
font URL; the font is fetched once, but only the first stylesheet is
rewritten to `../fonts/font_1.woff` — the second is saved back with the
original absolute URL untouched, so not every stylesheet containing an
occurrence of the font URL references the local path. -/
theorem c7_counterexample :
    (process_fonts (fun _ => FetchOutcome.success) "https://ex.com" "ex.com" dInit
        [("a.css", "body\x7bsrc:url(https://ex.com/f.woff)\x7d"),
         ("b.css", "p\x7bsrc:url(https://ex.com/f.woff)\x7d")]).fetches = 1 ∧
    (process_fonts (fun _ => FetchOutcome.success) "https://ex.com" "ex.com" dInit
        [("a.css", "body\x7bsrc:url(https://ex.com/f.woff)\x7d"),
         ("b.css", "p\x7bsrc:url(https://ex.com/f.woff)\x7d")]).files
      = [("a.css", "body\x7bsrc:url(../fonts/font_1.woff)\x7d"),
         ("b.css", "p\x7bsrc:url(https://ex.com/f.woff)\x7d")] ∧
    extract_fonts_from_css "https://ex.com" "ex.com"
        "p\x7bsrc:url(https://ex.com/f.woff)\x7d" = ["https://ex.com/f.woff"] := by
  refine ⟨rfl, rfl, rfl⟩

/-- C7 (amended): a font URL extracted from two stylesheets is downloaded at
most once (the `fonts_found` dedup skips the second occurrence entirely), the
first stylesheet's text has every occurrence of the URL replaced by the
`../fonts/` path, and the second stylesheet is left byte-identical. -/
theorem c7_amended_single_fetch_first_rewrite (net : String → FetchOutcome)
    (bu dom u n1 n2 c1 c2 : String)
    (he1 : extract_fonts_from_css bu dom c1 = [u])
    (he2 : extract_fonts_from_css bu dom c2 = [u]) :
    (process_fonts net bu dom dInit [(n1, c1), (n2, c2)]).fetches = 1 ∧
    (process_fonts net bu dom dInit [(n1, c1), (n2, c2)]).files
      = [(n1, pyReplace c1 u ("../fonts/" ++ font_filename 1 (get_file_extension u))),
         (n2, c2)] ∧
    (process_fonts net bu dom dInit [(n1, c1), (n2, c2)]).fontsFound = [u] := by
  rcases hn : net u with _ | e <;>
    refine ⟨?_, ?_, ?_⟩ <;>
      simp [process_fonts, process_fonts_go, process_fonts_urls, he1, he2,
        font_filename, download_resource, download_file, dInit, listContains, hn]

/-- Witness for the amended C7 at concrete inputs. -/
theorem c7_amended_single_fetch_first_rewrite_witness :
    (process_fonts (fun _ => FetchOutcome.success) "https://ex.com" "ex.com" dInit
        [("a.css", "body\x7bsrc:url(https://ex.com/f.woff)\x7d"),
         ("b.css", "div\x7bsrc:url(https://ex.com/f.woff)\x7d")]).fetches = 1 ∧
    (process_fonts (fun _ => FetchOutcome.success) "https://ex.com" "ex.com" dInit
        [("a.css", "body\x7bsrc:url(https://ex.com/f.woff)\x7d"),
         ("b.css", "div\x7bsrc:url(https://ex.com/f.woff)\x7d")]).files
      = [("a.css", pyReplace "body\x7bsrc:url(https://ex.com/f.woff)\x7d"
            "https://ex.com/f.woff"
            ("../fonts/" ++ font_filename 1 (get_file_extension "https://ex.com/f.woff"))),
         ("b.css", "div\x7bsrc:url(https://ex.com/f.woff)\x7d")] ∧
    (process_fonts (fun _ => FetchOutcome.success) "https://ex.com" "ex.com" dInit
        [("a.css", "body\x7bsrc:url(https://ex.com/f.woff)\x7d"),
         ("b.css", "div\x7bsrc:url(https://ex.com/f.woff)\x7d")]).fontsFound
      = ["https://ex.com/f.woff"] :=
  c7_amended_single_fetch_first_rewrite (fun _ => FetchOutcome.success)
    "https://ex.com" "ex.com" "https://ex.com/f.woff" "a.css" "b.css"
    "body\x7bsrc:url(https://ex.com/f.woff)\x7d"
    "div\x7bsrc:url(https://ex.com/f.woff)\x7d" rfl rfl

/-- C8 (counterexample): with no configuration at all, the default rewrite
pass removes a foreign stylesheet link and a foreign script, and replaces a
foreign image src with `images/placeholder.png` — foreign references are not
left untouched by default. -/
theorem c8_counterexample :
    rewrite_paths "example.com"
        (Document.mk ["https://cdn.other.com/a.css"]
          ["https://cdn.other.com/a.js"] ["https://cdn.other.com/p.png"])
      = Document.mk [] [] ["images/placeholder.png"] := by
  decide

/-- C8 (amended): the default (and only) rewrite pass unconditionally drops
every stylesheet link and script whose attribute starts with `http` and is
not same-domain, replaces every such image src with
`images/placeholder.png`, and keeps every reference the removal condition
does not select. -/
theorem c8_amended_default_drops_foreign (domain : String) (doc : Document)
    (x y : String)
    (hxh : sStartsWith "http" x = true) (hxf : is_same_domain x domain = false)
    (hyh : sStartsWith "http" y = true) (hyf : is_same_domain y domain = false) :
    x ∉ (rewrite_paths domain doc).links ∧
    y ∉ (rewrite_paths domain doc).scripts ∧
    (rewrite_paths domain doc).imgs
      = doc.imgs.map (fun s =>
          if (sStartsWith "http" s && ! is_same_domain s domain) = true
          then "images/placeholder.png" else s) ∧
    ∀ z ∈ doc.links, (sStartsWith "http" z && ! is_same_domain z domain) = false →
      z ∈ (rewrite_paths domain doc).links :=
  ⟨rewrite_links_drops domain doc.links x hxh hxf,
   rewrite_scripts_drops domain doc.scripts y hyh hyf,
   rewrite_imgs_eq_map domain doc.imgs,
   fun z hz hc => rewrite_links_keeps domain doc.links z hz hc⟩

/-- Witness for the amended C8 at concrete inputs. -/
theorem c8_amended_default_drops_foreign_witness :
    "https://cdn.other.com/a.css" ∉ (rewrite_paths "example.com"
        (Document.mk ["https://cdn.other.com/a.css", "css/local.css"]
          ["https://cdn.other.com/a.js"]
          ["https://cdn.other.com/p.png", "images/x.png"])).links ∧
    "https://cdn.other.com/a.js" ∉ (rewrite_paths "example.com"
        (Document.mk ["https://cdn.other.com/a.css", "css/local.css"]
          ["https://cdn.other.com/a.js"]
          ["https://cdn.other.com/p.png", "images/x.png"])).scripts ∧
    (rewrite_paths "example.com"
        (Document.mk ["https://cdn.other.com/a.css", "css/local.css"]
          ["https://cdn.other.com/a.js"]
          ["https://cdn.other.com/p.png", "images/x.png"])).imgs
      = (["https://cdn.other.com/p.png", "images/x.png"] : List String).map
          (fun s =>
            if (sStartsWith "http" s && ! is_same_domain s "example.com") = true
            then "images/placeholder.png" else s) ∧
    ∀ z ∈ (["https://cdn.other.com/a.css", "css/local.css"] : List String),
      (sStartsWith "http" z && ! is_same_domain z "example.com") = false →
      z ∈ (rewrite_paths "example.com"
          (Document.mk ["https://cdn.other.com/a.css", "css/local.css"]
            ["https://cdn.other.com/a.js"]
            ["https://cdn.other.com/p.png", "images/x.png"])).links :=
  c8_amended_default_drops_foreign "example.com"
    (Document.mk ["https://cdn.other.com/a.css", "css/local.css"]
      ["https://cdn.other.com/a.js"]
      ["https://cdn.other.com/p.png", "images/x.png"])
    "https://cdn.other.com/a.css" "https://cdn.other.com/a.js"
    (by decide) (by decide) (by decide) (by decide)

/-- C9 (counterexample): a `data:` URL inside an inline style attribute is
classified same-origin by `extract_images` (its parsed netloc is empty), so
the normalizer pipeline registers it with the downloader — a download attempt
is performed, the URL is recorded in `failed_urls` after the transport rejects
the scheme, and the style attribute is rewritten to a local `images/` path. -/
theorem c9_counterexample :
    extract_images "https://ex.com" "ex.com" []
        [StyledTag.mk none false "background:url(data:image/png;base64,AAA)"]
      = [ImgRef.mk "data:image/png;base64,AAA" none false
          (some "background:url(data:image/png;base64,AAA)")] ∧
    (process_images (fun _ => FetchOutcome.failure "InvalidSchema") dInit
        [ImgRef.mk "data:image/png;base64,AAA" none false
          (some "background:url(data:image/png;base64,AAA)")]).fetches = 1 ∧
    (process_images (fun _ => FetchOutcome.failure "InvalidSchema") dInit
        [ImgRef.mk "data:image/png;base64,AAA" none false
          (some "background:url(data:image/png;base64,AAA)")]).st.failed_urls
      = [("data:image/png;base64,AAA", "InvalidSchema")] ∧
    (process_images (fun _ => FetchOutcome.failure "InvalidSchema") dInit
        [ImgRef.mk "data:image/png;base64,AAA" none false
          (some "background:url(data:image/png;base64,AAA)")]).refs
      = [ImgRef.mk "data:image/png;base64,AAA" none false
          (some "background:url(images/image_1.jpg)")] := by
  refine ⟨rfl, rfl, rfl, rfl⟩

/-- C9 (amended): only the server pipeline's `_should_download` excludes the
non-fetchable schemes (`data:`, `javascript:`, `mailto:`, `tel:`); in the
normalizer pipeline every reference `extract_images` emits — whatever its
scheme — is handed to the downloader, which performs a download attempt
whenever the URL is not already in `downloaded_urls`. -/
theorem c9_amended_scheme_filter_only_in_server (domain : String)
    (downloaded : List String) (url p : String)
    (hp : p ∈ nonFetchableSchemes) (hps : sStartsWith p url = true)
    (net : String → FetchOutcome) (st : DState) (rf : ImgRef)
    (hmem : listContains st.downloaded_urls rf.url = false) :
    should_download domain downloaded url = false ∧
    (process_images net st [rf]).fetches = 1 := by
  constructor
  · have hany : nonFetchableSchemes.any (fun q => sStartsWith q url) = true :=
      List.any_eq_true.mpr ⟨p, hp, hps⟩
    simp [should_download, hany]
  · rcases hn : net rf.url with _ | e <;>
      simp [process_images, process_images_go, download_resource, download_file,
        hmem, hn]

/-- Witness for the amended C9 at concrete inputs. -/
theorem c9_amended_scheme_filter_only_in_server_witness :
    should_download "ex.com" [] "data:image/png;base64,AAA" = false ∧
    (process_images (fun _ => FetchOutcome.failure "InvalidSchema") dInit
        [ImgRef.mk "data:image/png;base64,AAA" none false
          (some "background:url(data:image/png;base64,AAA)")]).fetches = 1 :=
  c9_amended_scheme_filter_only_in_server "ex.com" [] "data:image/png;base64,AAA"
    "data:" (by decide) (by decide) (fun _ => FetchOutcome.failure "InvalidSchema")
    dInit
    (ImgRef.mk "data:image/png;base64,AAA" none false
      (some "background:url(data:image/png;base64,AAA)"))
    (by decide)

end WebCloner
